import Mathlib

/-!
FullTracer (fork_1) of the zkEVM prover

Shallow embedding of `src/main_sm/fork_1/main/full_tracer.hpp`.

* `uint64_t` values are natural numbers (the transaction count and the gas difference are
  reduced modulo `2^64`),
  `mpz_class` values are integers, `string` is `String`, `vector<T>` is `List T`.
* `unordered_map<K,V>` is an association list searched from the front (`UMap`); the iteration
  order of an unordered map is unspecified and nothing below depends on it.
* `map<uint64_t,V>` is an association list kept in ascending key order (`OMap`); walking the
  list is the in-order iteration of the C++ map.
* The header declares the event handlers but their bodies are in a translation unit that is not
  part of the sources at hand; such handlers are modelled from the specification and every
  definition of that kind says so in its documentation.
-/

namespace fork_1

/-! ## Containers -/

/-- Association list standing for `unordered_map<K,V>` -/
abbrev UMap (K V : Type) := List (K × V)

/-- Lookup of a key, `unordered_map::find` -/
def UMap.find {K V : Type} [DecidableEq K] (k : K) : UMap K V → Option V
  | [] => none
  | (k1, v1) :: rest => if k = k1 then some v1 else UMap.find k rest

/-- Insert or overwrite, `m[k] = v` on an `unordered_map` -/
def UMap.assign {K V : Type} [DecidableEq K] (k : K) (v : V) : UMap K V → UMap K V
  | [] => [(k, v)]
  | (k1, v1) :: rest => if k = k1 then (k, v) :: rest else (k1, v1) :: UMap.assign k v rest

/-- Number of entries stored under a key -/
def UMap.count {K V : Type} [DecidableEq K] (k : K) (m : UMap K V) : Nat :=
  (m.filter (fun e => decide (e.1 = k))).length

/-- Association list in ascending key order standing for `map<uint64_t,V>` -/
abbrev OMap (V : Type) := List (Nat × V)

/-- Lookup of a key, `map::find` -/
def OMap.find {V : Type} (k : Nat) : OMap V → Option V
  | [] => none
  | (k1, v1) :: rest => if k = k1 then some v1 else OMap.find k rest

/-- Insert or overwrite, `m[k] = v` on a `map`; a new key is placed before the first larger key -/
def OMap.assign {V : Type} (k : Nat) (v : V) : OMap V → OMap V
  | [] => [(k, v)]
  | (k1, v1) :: rest =>
    if k < k1 then (k, v) :: (k1, v1) :: rest
    else if k = k1 then (k, v) :: rest
    else (k1, v1) :: OMap.assign k v rest

/-! ## Data model -/

/-- Record `ContextData` of the header -/
structure ContextData where
  type : String
  deriving DecidableEq, Repr

/-- Types the header names without declaring them and the specification does not describe
(`Goldilocks` of the field library, `TxGAS` and `ReturnFromCreate` of the tracer interface).
The tracer only stores and copies their values, so they are parameters of the embedding. -/
structure Externals where
  Goldilocks : Type
  TxGAS : Type
  ReturnFromCreate : Type

/-- Modelled from the spec: the type `Opcode` is declared in `full_tracer_interface.hpp`, which is
not among the sources. Section 3, opcode record: program counter, opcode mnemonic, call depth,
gas remaining and gas cost of the step, a snapshot of the value stack, an optional memory
snapshot and an optional error tag. -/
structure Opcode where
  pc : Nat
  opcode : String
  depth : Nat
  gas : Nat
  gas_cost : Nat
  stack : List Int
  memory : Option String
  error : Option String
  deriving DecidableEq, Repr

/-- Modelled from the spec: the type `Log` is declared in `full_tracer_interface.hpp`, which is
not among the sources. Section 3, log entry: address, ordered topics, data and an index unique
within the owning transaction. -/
structure Log where
  address : String
  topics : List String
  data : String
  index : Nat
  deriving DecidableEq, Repr

/-- Modelled from the spec: the type `InfoReadWrite` is declared in `full_tracer_interface.hpp`,
which is not among the sources. Section 3, read/write address info: whether the address was ever
read, whether it was ever written, and the last observed value (arbitrary precision). -/
structure InfoReadWrite where
  read : Bool
  written : Bool
  value : Int
  deriving DecidableEq, Repr

/-- Modelled from the spec: the type `Response` is declared in `full_tracer_interface.hpp`, which
is not among the sources. Section 3, per-transaction response: gas used, success flag, error
message, created address, the logs of the transaction and its slice of the opcode trace;
section 4.6 also attaches the storage deltas of the transaction. -/
structure Response where
  gas_used : Nat
  success : Bool
  error : String
  create_address : Option String
  logs : OMap Log
  deltaStorage : UMap String (UMap String String)
  execution_trace : List Opcode
  deriving DecidableEq, Repr

/-- Record `FinalTrace`: the type is declared in `full_tracer_interface.hpp`, which is not among
the sources; its fields here are exactly the ones the accessors of the header read. -/
structure FinalTrace where
  cumulative_gas_used : Nat
  new_state_root : String
  new_acc_input_hash : String
  new_local_exit_root : String
  responses : List Response
  deriving DecidableEq, Repr

/-- Data members of class `FullTracer`, in the order of the header. The members that exist only
under `LOG_TIME_STATISTICS` are timing instrumentation and are left out. -/
structure FullTracer (X : Externals) where
  fr : X.Goldilocks
  depth : Nat
  prevCTX : Nat
  initGas : Nat
  deltaStorage : UMap String (UMap String String)
  finalTrace : FinalTrace
  txGAS : UMap Nat X.TxGAS
  txCount : Nat
  txTime : Nat
  fullStack : List (List Int)
  accBatchGas : Nat
  logs : OMap (OMap Log)
  call_trace : List Opcode
  execution_trace : List Opcode
  lastError : String
  numberOfOpcodesInThisTx : Nat
  lastErrorOpcode : Nat
  read_write_addresses : UMap String InfoReadWrite
  returnFromCreate : X.ReturnFromCreate
  callData : UMap Nat ContextData
  previousMemory : String

/-! ## Operations defined in the header -/

/-- Constructor `FullTracer(Goldilocks &fr)`: the member initialiser list sets the eight counters,
every string and container member is default-constructed (empty). The members `finalTrace` and
`returnFromCreate` are default-constructed by constructors of types declared outside the
sources, so their initial values are parameters. -/
def FullTracer.new {X : Externals} (fr : X.Goldilocks) (finalTrace0 : FinalTrace)
    (returnFromCreate0 : X.ReturnFromCreate) : FullTracer X :=
  { fr := fr
    depth := 1
    prevCTX := 0
    initGas := 0
    deltaStorage := []
    finalTrace := finalTrace0
    txGAS := []
    txCount := 0
    txTime := 0
    fullStack := []
    accBatchGas := 0
    logs := []
    call_trace := []
    execution_trace := []
    lastError := ""
    numberOfOpcodesInThisTx := 0
    lastErrorOpcode := 0
    read_write_addresses := []
    returnFromCreate := returnFromCreate0
    callData := []
    previousMemory := "" }

/-- Copy assignment `FullTracer & operator =(const FullTracer & other)`: `self` is the object
assigned to, the result is the object after the fourteen member assignments of the body. -/
def FullTracer.assign {X : Externals} (self other : FullTracer X) : FullTracer X :=
  { self with
    depth := other.depth
    initGas := other.initGas
    deltaStorage := other.deltaStorage
    finalTrace := other.finalTrace
    txGAS := other.txGAS
    txCount := other.txCount
    txTime := other.txTime
    fullStack := other.fullStack
    accBatchGas := other.accBatchGas
    logs := other.logs
    call_trace := other.call_trace
    execution_trace := other.execution_trace
    lastError := other.lastError
    callData := other.callData }

/-! The accessors are non-const member functions; each is embedded as a state transformer that
returns the value read together with the tracer after the call. An accessor returning a
reference or a pointer is embedded by the value it refers to. -/

/-- Accessor `uint64_t get_cumulative_gas_used (void)` -/
def FullTracer.get_cumulative_gas_used {X : Externals} (s : FullTracer X) : Nat × FullTracer X :=
  (s.finalTrace.cumulative_gas_used, s)

/-- Accessor `string & get_new_state_root (void)` -/
def FullTracer.get_new_state_root {X : Externals} (s : FullTracer X) : String × FullTracer X :=
  (s.finalTrace.new_state_root, s)

/-- Accessor `string & get_new_acc_input_hash (void)` -/
def FullTracer.get_new_acc_input_hash {X : Externals} (s : FullTracer X) :
    String × FullTracer X :=
  (s.finalTrace.new_acc_input_hash, s)

/-- Accessor `string & get_new_local_exit_root (void)` -/
def FullTracer.get_new_local_exit_root {X : Externals} (s : FullTracer X) :
    String × FullTracer X :=
  (s.finalTrace.new_local_exit_root, s)

/-- Accessor `unordered_map<string, InfoReadWrite> * get_read_write_addresses(void)` -/
def FullTracer.get_read_write_addresses {X : Externals} (s : FullTracer X) :
    UMap String InfoReadWrite × FullTracer X :=
  (s.read_write_addresses, s)

/-- Accessor `vector<Response> & get_responses(void)` -/
def FullTracer.get_responses {X : Externals} (s : FullTracer X) :
    List Response × FullTracer X :=
  (s.finalTrace.responses, s)

/-- Accessor `vector<Opcode> & get_info(void)` -/
def FullTracer.get_info {X : Externals} (s : FullTracer X) : List Opcode × FullTracer X :=
  (s.execution_trace, s)

/-! ## Handlers declared in the header, modelled from the specification

The header declares `onError`, `onStoreLog`, `onProcessTx`, `onUpdateStorage`, `onFinishTx` and
`addReadWriteAddress` with the signature `(Context &ctx, const RomCommand &cmd)` (limbs and a
value for the last one); their bodies are not among the sources. The payload each handler reads
from `ctx` and `cmd` is an explicit argument here. -/

/-- Modelled from the spec: eight `Goldilocks::Element` limbs, the form in which
`addReadWriteAddress` receives the address and the key type (section 4.1); a field element is a
natural number. -/
structure Limbs where
  e0 : Nat
  e1 : Nat
  e2 : Nat
  e3 : Nat
  e4 : Nat
  e5 : Nat
  e6 : Nat
  e7 : Nat
  deriving DecidableEq, Repr

/-- Modelled from the spec: the Limb Codec of section 4.1, whose code is not among the sources.
Decoding is total and deterministic; section 9 leaves limb width, ordering and packing open, so
the decoding of the address limbs into the canonical address string and the reading of the
key-type discriminator (is this observation a write) are parameters. -/
structure LimbCodec where
  address : Limbs → String
  isWrite : Limbs → Bool

/-- Modelled from the spec: body of `FullTracer::addReadWriteAddress`, missing from the sources.
Section 4.2: decode the identifiers; if the address is unseen, insert a new entry marked read
with the given value; if it is seen and the observation is a write, mark it written and
overwrite the stored value; if it is seen and the observation is a read, leave the entry
untouched. -/
def FullTracer.addReadWriteAddress {X : Externals} (codec : LimbCodec) (s : FullTracer X)
    (address keyType : Limbs) (value : Int) : FullTracer X :=
  let a := codec.address address
  match UMap.find a s.read_write_addresses with
  | none =>
    let fresh : InfoReadWrite := { read := true, written := false, value := value }
    { s with read_write_addresses := UMap.assign a fresh s.read_write_addresses }
  | some info =>
    if codec.isWrite keyType then
      let upgraded : InfoReadWrite := { info with written := true, value := value }
      { s with read_write_addresses := UMap.assign a upgraded s.read_write_addresses }
    else s

/-- Modelled from the spec: body of `FullTracer::onStoreLog`, missing from the sources.
Section 4.4: insert the entry into the per-transaction, per-index structure `logs`. The
interpreter is assumed never to reuse a (txIndex, logIndex) pair; the map assignment used here
would overwrite. -/
def FullTracer.onStoreLog {X : Externals} (s : FullTracer X) (txIndex logIndex : Nat)
    (entry : Log) : FullTracer X :=
  let logsOfTx : OMap Log := (OMap.find txIndex s.logs).getD []
  { s with logs := OMap.assign txIndex (OMap.assign logIndex entry logsOfTx) s.logs }

/-- Modelled from the spec: retrieval of the logs of a transaction (section 4.4), missing from
the sources: the in-order walk of `logs[txIndex]`, empty when the transaction has no logs. -/
def FullTracer.logsOf {X : Externals} (s : FullTracer X) (txIndex : Nat) : List (Nat × Log) :=
  (OMap.find txIndex s.logs).getD []

/-- Deliver a sequence of `onStoreLog` events, each a transaction index, a log index and an
entry, in call order. -/
def FullTracer.storeLogs {X : Externals} (s : FullTracer X) :
    List (Nat × Nat × Log) → FullTracer X
  | [] => s
  | (txIndex, logIndex, entry) :: rest =>
    FullTracer.storeLogs (s.onStoreLog txIndex logIndex entry) rest

/-- The insertions of a sequence of `onStoreLog` events that belong to one transaction, as
(log index, entry) pairs in call order. -/
def insertionsFor (txIndex : Nat) (events : List (Nat × Nat × Log)) : List (Nat × Log) :=
  (events.filter (fun e => decide (e.1 = txIndex))).map (fun e => e.2)

/-- A codec instance for concrete evaluations: the address string lists the eight limbs, and a
key type whose first limb is 1 denotes a write. -/
def listingCodec : LimbCodec :=
  { address := fun l =>
      ",".intercalate ([l.e0, l.e1, l.e2, l.e3, l.e4, l.e5, l.e6, l.e7].map Nat.repr)
    isWrite := fun k => decide (k.e0 = 1) }

/-- Limbs of an address for concrete evaluations -/
def sampleAddress : Limbs :=
  { e0 := 1, e1 := 2, e2 := 3, e3 := 4, e4 := 5, e5 := 6, e6 := 7, e7 := 8 }

/-- Key-type limbs that the codec for concrete evaluations reads as a pure read -/
def sampleReadKey : Limbs :=
  { e0 := 0, e1 := 0, e2 := 0, e3 := 0, e4 := 0, e5 := 0, e6 := 0, e7 := 0 }

/-- Key-type limbs that the codec for concrete evaluations reads as a write -/
def sampleWriteKey : Limbs :=
  { e0 := 1, e1 := 0, e2 := 0, e3 := 0, e4 := 0, e5 := 0, e6 := 0, e7 := 0 }

/-- Log entry number `i` of a transaction, for concrete evaluations -/
def sampleLog (i : Nat) : Log :=
  { address := "0xaa", topics := [], data := "", index := i }

/-- Instance of the external types for concrete evaluations: values of these types are only
stored, never inspected. -/
def PlainExternals : Externals :=
  { Goldilocks := Unit, TxGAS := Unit, ReturnFromCreate := Unit }

/-- A final trace with nothing accumulated -/
def emptyFinalTrace : FinalTrace :=
  { cumulative_gas_used := 0
    new_state_root := ""
    new_acc_input_hash := ""
    new_local_exit_root := ""
    responses := [] }

/-- A freshly constructed tracer -/
def freshTracer : FullTracer PlainExternals :=
  FullTracer.new () emptyFinalTrace ()

/-- A tracer that has observed one address as read -/
def tracerWithAddress : FullTracer PlainExternals :=
  { freshTracer with
    read_write_addresses := [("0x01", { read := true, written := false, value := 5 })] }

/-- A tracer whose last recorded fault is "out of gas" -/
def tracerWithFault : FullTracer PlainExternals :=
  { freshTracer with lastError := "out of gas" }

/-! ## Theorems: copy assignment, accessors and constructor -/

/-- C1: after the copy assignment `a = b` each accumulated field of `a` equals the field of `b`:
depth, initGas, deltaStorage, finalTrace, txGAS, txCount, txTime, fullStack, accBatchGas, logs,
call_trace, execution_trace and callData. -/
theorem assign_copies_accumulated_fields {X : Externals} (a b : FullTracer X) :
    (a.assign b).depth = b.depth ∧
    (a.assign b).initGas = b.initGas ∧
    (a.assign b).deltaStorage = b.deltaStorage ∧
    (a.assign b).finalTrace = b.finalTrace ∧
    (a.assign b).txGAS = b.txGAS ∧
    (a.assign b).txCount = b.txCount ∧
    (a.assign b).txTime = b.txTime ∧
    (a.assign b).fullStack = b.fullStack ∧
    (a.assign b).accBatchGas = b.accBatchGas ∧
    (a.assign b).logs = b.logs ∧
    (a.assign b).call_trace = b.call_trace ∧
    (a.assign b).execution_trace = b.execution_trace ∧
    (a.assign b).callData = b.callData :=
  ⟨rfl, rfl, rfl, rfl, rfl, rfl, rfl, rfl, rfl, rfl, rfl, rfl, rfl⟩

/-- C2, as stated, fails: with `a` freshly constructed and `b` holding one observed address,
after `a = b` the read/write address set reached through `get_read_write_addresses` on `a` is
still empty and differs from the one reached on `b`. -/
theorem assign_misses_read_write_addresses :
    (freshTracer.assign tracerWithAddress).get_read_write_addresses.1 = [] ∧
    tracerWithAddress.get_read_write_addresses.1 =
      [("0x01", { read := true, written := false, value := 5 })] ∧
    (freshTracer.assign tracerWithAddress).get_read_write_addresses.1 ≠
      tracerWithAddress.get_read_write_addresses.1 := by
  refine ⟨rfl, rfl, ?_⟩
  intro h
  exact List.noConfusion h

/-- C2, amended: after `a = b` the accessors get_cumulative_gas_used, get_new_state_root,
get_new_acc_input_hash, get_new_local_exit_root, get_responses and get_info return on `a` what
they return on `b`. -/
theorem assign_copies_accessor_views {X : Externals} (a b : FullTracer X) :
    (a.assign b).get_cumulative_gas_used.1 = b.get_cumulative_gas_used.1 ∧
    (a.assign b).get_new_state_root.1 = b.get_new_state_root.1 ∧
    (a.assign b).get_new_acc_input_hash.1 = b.get_new_acc_input_hash.1 ∧
    (a.assign b).get_new_local_exit_root.1 = b.get_new_local_exit_root.1 ∧
    (a.assign b).get_responses.1 = b.get_responses.1 ∧
    (a.assign b).get_info.1 = b.get_info.1 :=
  ⟨rfl, rfl, rfl, rfl, rfl, rfl⟩

/-- C3: the copy assignment leaves out the step index of the last fault: after `a = b` the
field lastErrorOpcode of `a` has the value it had before, whatever `b.lastErrorOpcode` is. -/
theorem assign_keeps_lastErrorOpcode {X : Externals} (a b : FullTracer X) :
    (a.assign b).lastErrorOpcode = a.lastErrorOpcode :=
  rfl

/-- C4, as stated, fails: with `a` freshly constructed (no fault) and `b` holding the fault
message "out of gas", after `a = b` the field lastError of `a` is "out of gas", not the empty
string it held before. -/
theorem assign_overwrites_lastError :
    freshTracer.lastError = "" ∧
    (freshTracer.assign tracerWithFault).lastError = "out of gas" ∧
    (freshTracer.assign tracerWithFault).lastError ≠ freshTracer.lastError := by
  refine ⟨rfl, rfl, ?_⟩
  decide

/-- C4, amended: the fault message is part of the copy: after `a = b` the field lastError of
`a` equals `b.lastError`. -/
theorem assign_copies_lastError {X : Externals} (a b : FullTracer X) :
    (a.assign b).lastError = b.lastError :=
  rfl

/-- C5: each accessor returns one field of the tracer state and leaves the tracer unchanged:
the four scalar views and the responses come from finalTrace, get_read_write_addresses gives
read_write_addresses, and get_info gives execution_trace. -/
theorem accessors_are_views {X : Externals} (s : FullTracer X) :
    s.get_cumulative_gas_used = (s.finalTrace.cumulative_gas_used, s) ∧
    s.get_new_state_root = (s.finalTrace.new_state_root, s) ∧
    s.get_new_acc_input_hash = (s.finalTrace.new_acc_input_hash, s) ∧
    s.get_new_local_exit_root = (s.finalTrace.new_local_exit_root, s) ∧
    s.get_read_write_addresses = (s.read_write_addresses, s) ∧
    s.get_responses = (s.finalTrace.responses, s) ∧
    s.get_info = (s.execution_trace, s) :=
  ⟨rfl, rfl, rfl, rfl, rfl, rfl, rfl⟩

/-- C10: a freshly constructed tracer has depth 1, the counters prevCTX, initGas, txCount,
txTime, accBatchGas, numberOfOpcodesInThisTx and lastErrorOpcode at 0, an empty lastError, and
empty deltaStorage, txGAS, fullStack, logs, call_trace, execution_trace, read_write_addresses
and callData. -/
theorem new_is_batch_reset_state {X : Externals} (fr : X.Goldilocks) (finalTrace0 : FinalTrace)
    (returnFromCreate0 : X.ReturnFromCreate) :
    (FullTracer.new fr finalTrace0 returnFromCreate0).depth = 1 ∧
    (FullTracer.new fr finalTrace0 returnFromCreate0).prevCTX = 0 ∧
    (FullTracer.new fr finalTrace0 returnFromCreate0).initGas = 0 ∧
    (FullTracer.new fr finalTrace0 returnFromCreate0).txCount = 0 ∧
    (FullTracer.new fr finalTrace0 returnFromCreate0).txTime = 0 ∧
    (FullTracer.new fr finalTrace0 returnFromCreate0).accBatchGas = 0 ∧
    (FullTracer.new fr finalTrace0 returnFromCreate0).numberOfOpcodesInThisTx = 0 ∧
    (FullTracer.new fr finalTrace0 returnFromCreate0).lastErrorOpcode = 0 ∧
    (FullTracer.new fr finalTrace0 returnFromCreate0).lastError = "" ∧
    (FullTracer.new fr finalTrace0 returnFromCreate0).deltaStorage = [] ∧
    (FullTracer.new fr finalTrace0 returnFromCreate0).txGAS = [] ∧
    (FullTracer.new fr finalTrace0 returnFromCreate0).fullStack = [] ∧
    (FullTracer.new fr finalTrace0 returnFromCreate0).logs = [] ∧
    (FullTracer.new fr finalTrace0 returnFromCreate0).call_trace = [] ∧
    (FullTracer.new fr finalTrace0 returnFromCreate0).execution_trace = [] ∧
    (FullTracer.new fr finalTrace0 returnFromCreate0).read_write_addresses = [] ∧
    (FullTracer.new fr finalTrace0 returnFromCreate0).callData = [] :=
  ⟨rfl, rfl, rfl, rfl, rfl, rfl, rfl, rfl, rfl, rfl, rfl, rfl, rfl, rfl, rfl, rfl, rfl⟩

/-! ## Lemmas on the containers -/

theorem UMap.find_assign_same_key {K V : Type} [DecidableEq K] (k : K) (v : V) (m : UMap K V) :
    UMap.find k (UMap.assign k v m) = some v := by
  induction m with
  | nil => simp [UMap.assign, UMap.find]
  | cons e rest ih =>
    obtain ⟨k1, v1⟩ := e
    by_cases h : k = k1
    · simp [UMap.assign, UMap.find, h]
    · simp [UMap.assign, UMap.find, h, ih]

theorem UMap.count_assign_of_find_none {K V : Type} [DecidableEq K] (k : K) (v : V)
    (m : UMap K V) (h : UMap.find k m = none) : UMap.count k (UMap.assign k v m) = 1 := by
  induction m with
  | nil => simp [UMap.assign, UMap.count]
  | cons e rest ih =>
    obtain ⟨k1, v1⟩ := e
    by_cases hk : k = k1
    · simp [UMap.find, hk] at h
    · have hrest : UMap.find k rest = none := by simpa [UMap.find, hk] using h
      have := ih hrest
      simp only [UMap.count] at this ⊢
      simp [UMap.assign, hk, Ne.symm hk, List.filter_cons, this]

theorem UMap.count_assign_of_find_some {K V : Type} [DecidableEq K] (k : K) (v w : V)
    (m : UMap K V) (h : UMap.find k m = some w) :
    UMap.count k (UMap.assign k v m) = UMap.count k m := by
  induction m with
  | nil => simp [UMap.find] at h
  | cons e rest ih =>
    obtain ⟨k1, v1⟩ := e
    by_cases hk : k = k1
    · subst hk
      simp [UMap.assign, UMap.count, List.filter_cons]
    · have hrest : UMap.find k rest = some w := by simpa [UMap.find, hk] using h
      have := ih hrest
      simp only [UMap.count] at this ⊢
      simp [UMap.assign, hk, Ne.symm hk, List.filter_cons, this]

/-! ## Lemmas on storage updates -/

/-- C9: for an address not yet in read_write_addresses, two calls of addReadWriteAddress with
the same limbs observed as pure reads leave exactly one entry for the address, marked read and
not written, holding the first value; the second call changes nothing. A following call with
the same address observed as a write keeps a single entry, marks it written and replaces the
stored value by the new value. -/
theorem address_dedup {X : Externals} (codec : LimbCodec) (s : FullTracer X)
    (address keyRead keyWrite : Limbs) (v v2 w : Int)
    (hunseen : UMap.find (codec.address address) s.read_write_addresses = none)
    (hread : codec.isWrite keyRead = false) (hwrite : codec.isWrite keyWrite = true) :
    (s.addReadWriteAddress codec address keyRead v).addReadWriteAddress codec address keyRead v2
      = s.addReadWriteAddress codec address keyRead v ∧
    UMap.count (codec.address address)
      ((s.addReadWriteAddress codec address keyRead v).addReadWriteAddress codec address
        keyRead v2).read_write_addresses = 1 ∧
    UMap.find (codec.address address)
      ((s.addReadWriteAddress codec address keyRead v).addReadWriteAddress codec address
        keyRead v2).read_write_addresses = some { read := true, written := false, value := v } ∧
    UMap.count (codec.address address)
      (((s.addReadWriteAddress codec address keyRead v).addReadWriteAddress codec address
        keyRead v2).addReadWriteAddress codec address keyWrite w).read_write_addresses = 1 ∧
    UMap.find (codec.address address)
      (((s.addReadWriteAddress codec address keyRead v).addReadWriteAddress codec address
        keyRead v2).addReadWriteAddress codec address keyWrite w).read_write_addresses =
      some { read := true, written := true, value := w } := by
  have f1 : UMap.find (codec.address address)
      (s.addReadWriteAddress codec address keyRead v).read_write_addresses =
      some { read := true, written := false, value := v } := by
    simp [FullTracer.addReadWriteAddress, hunseen, UMap.find_assign_same_key]
  have c1 : UMap.count (codec.address address)
      (s.addReadWriteAddress codec address keyRead v).read_write_addresses = 1 := by
    simp [FullTracer.addReadWriteAddress, hunseen, UMap.count_assign_of_find_none]
  have idem : (s.addReadWriteAddress codec address keyRead v).addReadWriteAddress codec address
      keyRead v2 = s.addReadWriteAddress codec address keyRead v := by
    generalize s.addReadWriteAddress codec address keyRead v = s1 at f1
    simp [FullTracer.addReadWriteAddress, f1, hread]
  rw [idem]
  refine ⟨rfl, c1, f1, ?_, ?_⟩
  · generalize s.addReadWriteAddress codec address keyRead v = s1 at f1 c1
    simp only [FullTracer.addReadWriteAddress, f1, hwrite, if_true]
    rw [UMap.count_assign_of_find_some _ _ _ _ f1]
    exact c1
  · generalize s.addReadWriteAddress codec address keyRead v = s1 at f1
    simp [FullTracer.addReadWriteAddress, f1, hwrite, UMap.find_assign_same_key]

/-- Witness of C9 on a freshly constructed tracer: two reads with value 5, then a write of 9. -/
theorem address_dedup_witness :
    UMap.find (listingCodec.address sampleAddress) freshTracer.read_write_addresses = none ∧
    listingCodec.isWrite sampleReadKey = false ∧
    listingCodec.isWrite sampleWriteKey = true ∧
    UMap.find (listingCodec.address sampleAddress)
      ((freshTracer.addReadWriteAddress listingCodec sampleAddress sampleReadKey
        5).addReadWriteAddress listingCodec sampleAddress sampleReadKey
        5).read_write_addresses = some { read := true, written := false, value := 5 } ∧
    UMap.find (listingCodec.address sampleAddress)
      (((freshTracer.addReadWriteAddress listingCodec sampleAddress sampleReadKey
        5).addReadWriteAddress listingCodec sampleAddress sampleReadKey
        5).addReadWriteAddress listingCodec sampleAddress sampleWriteKey
        9).read_write_addresses = some { read := true, written := true, value := 9 } :=
  ⟨rfl, rfl, rfl,
    (address_dedup listingCodec freshTracer sampleAddress sampleReadKey sampleWriteKey 5 5 9
      rfl rfl rfl).2.2.1,
    (address_dedup listingCodec freshTracer sampleAddress sampleReadKey sampleWriteKey 5 5 9
      rfl rfl rfl).2.2.2.2⟩

/-! ## Lemmas on the ordered map and the log store -/

theorem OMap.find_assign_at_key {V : Type} (k : Nat) (v : V) (m : OMap V) :
    OMap.find k (OMap.assign k v m) = some v := by
  induction m with
  | nil => simp [OMap.assign, OMap.find]
  | cons e rest ih =>
    obtain ⟨k1, v1⟩ := e
    by_cases hlt : k < k1
    · simp [OMap.assign, OMap.find, hlt]
    · by_cases heq : k = k1
      · simp [OMap.assign, OMap.find, heq]
      · simp [OMap.assign, OMap.find, hlt, heq, ih]

theorem OMap.find_assign_other_key {V : Type} (k k2 : Nat) (v : V) (m : OMap V) (hne : k2 ≠ k) :
    OMap.find k2 (OMap.assign k v m) = OMap.find k2 m := by
  induction m with
  | nil => simp [OMap.assign, OMap.find, hne]
  | cons e rest ih =>
    obtain ⟨k1, v1⟩ := e
    by_cases hlt : k < k1
    · simp [OMap.assign, OMap.find, hlt, hne]
    · by_cases heq : k = k1
      · subst heq
        simp [OMap.assign, OMap.find, hne]
      · simp [OMap.assign, OMap.find, hlt, heq, ih]

theorem OMap.mem_keys_assign {V : Type} (k : Nat) (v : V) (m : OMap V) (x : Nat) :
    x ∈ (OMap.assign k v m).map Prod.fst ↔ x = k ∨ x ∈ m.map Prod.fst := by
  induction m with
  | nil => simp [OMap.assign]
  | cons e rest ih =>
    obtain ⟨k1, v1⟩ := e
    by_cases hlt : k < k1
    · simp [OMap.assign, hlt]
    · by_cases heq : k = k1
      · subst heq
        simp [OMap.assign]
      · simp only [OMap.assign, hlt, heq, if_false, List.map_cons, List.mem_cons, ih]
        tauto

theorem OMap.sorted_assign {V : Type} (k : Nat) (v : V) (m : OMap V)
    (h : List.Sorted (· < ·) (m.map Prod.fst)) :
    List.Sorted (· < ·) ((OMap.assign k v m).map Prod.fst) := by
  induction m with
  | nil => simp [OMap.assign]
  | cons e rest ih =>
    obtain ⟨k1, v1⟩ := e
    simp only [List.map_cons, List.sorted_cons] at h
    by_cases hlt : k < k1
    · simp only [OMap.assign, hlt, if_true, List.map_cons, List.sorted_cons, List.mem_cons]
      refine ⟨?_, h.1, h.2⟩
      rintro b (rfl | hb)
      · exact hlt
      · exact lt_trans hlt (h.1 b hb)
    · by_cases heq : k = k1
      · subst heq
        simp only [OMap.assign, lt_irrefl, if_false, if_true, List.map_cons, List.sorted_cons]
        exact h
      · simp only [OMap.assign, hlt, heq, if_false, List.map_cons, List.sorted_cons]
        refine ⟨?_, ih h.2⟩
        intro b hb
        rw [OMap.mem_keys_assign] at hb
        rcases hb with rfl | hb
        · omega
        · exact h.1 b hb

theorem OMap.perm_assign {V : Type} (k : Nat) (v : V) (m : OMap V)
    (h : k ∉ m.map Prod.fst) : List.Perm (OMap.assign k v m) ((k, v) :: m) := by
  induction m with
  | nil => simp [OMap.assign]
  | cons e rest ih =>
    obtain ⟨k1, v1⟩ := e
    simp only [List.map_cons, List.mem_cons, not_or] at h
    by_cases hlt : k < k1
    · simp [OMap.assign, hlt]
    · simp only [OMap.assign, hlt, h.1, if_false]
      exact ((ih h.2).cons (k1, v1)).trans (List.Perm.swap _ _ _)

theorem FullTracer.logsOf_onStoreLog_same {X : Externals} (s : FullTracer X)
    (txIndex logIndex : Nat) (entry : Log) :
    (s.onStoreLog txIndex logIndex entry).logsOf txIndex =
      OMap.assign logIndex entry (s.logsOf txIndex) := by
  simp [FullTracer.onStoreLog, FullTracer.logsOf, OMap.find_assign_at_key]

theorem FullTracer.logsOf_onStoreLog_ne {X : Externals} (s : FullTracer X)
    (txIndex other logIndex : Nat) (entry : Log) (hne : other ≠ txIndex) :
    (s.onStoreLog txIndex logIndex entry).logsOf other = s.logsOf other := by
  simp [FullTracer.onStoreLog, FullTracer.logsOf, OMap.find_assign_other_key _ _ _ _ hne]

theorem FullTracer.logsOf_storeLogs {X : Externals} (t : Nat)
    (events : List (Nat × Nat × Log)) :
    ∀ s : FullTracer X,
      List.Sorted (· < ·) ((s.logsOf t).map Prod.fst) →
      (((insertionsFor t events).map Prod.fst) ++ (s.logsOf t).map Prod.fst).Nodup →
      List.Sorted (· < ·) (((s.storeLogs events).logsOf t).map Prod.fst) ∧
      List.Perm ((s.storeLogs events).logsOf t) (insertionsFor t events ++ s.logsOf t) := by
  induction events with
  | nil =>
    intro s hs _
    exact ⟨hs, by simp [FullTracer.storeLogs, insertionsFor]⟩
  | cons ev rest ih =>
    intro s hs hnd
    obtain ⟨tx, idx, entry⟩ := ev
    simp only [FullTracer.storeLogs]
    by_cases htx : tx = t
    · subst htx
      have hins : insertionsFor tx ((tx, idx, entry) :: rest) =
          (idx, entry) :: insertionsFor tx rest := by
        simp [insertionsFor]
      rw [hins] at hnd ⊢
      simp only [List.map_cons, List.cons_append, List.nodup_cons, List.mem_append,
        not_or] at hnd
      have hperm1 := OMap.perm_assign idx entry (s.logsOf tx) hnd.1.2
      have hsame := FullTracer.logsOf_onStoreLog_same s tx idx entry
      have hs1 : List.Sorted (· < ·)
          (((s.onStoreLog tx idx entry).logsOf tx).map Prod.fst) := by
        rw [hsame]
        exact OMap.sorted_assign idx entry _ hs
      have hnd1 : (((insertionsFor tx rest).map Prod.fst) ++
          ((s.onStoreLog tx idx entry).logsOf tx).map Prod.fst).Nodup := by
        rw [hsame]
        have hp : List.Perm (((insertionsFor tx rest).map Prod.fst) ++
            (OMap.assign idx entry (s.logsOf tx)).map Prod.fst)
            (idx :: (((insertionsFor tx rest).map Prod.fst) ++ (s.logsOf tx).map Prod.fst)) := by
          have h1 := (hperm1.map Prod.fst).append_left ((insertionsFor tx rest).map Prod.fst)
          exact h1.trans (by simp)
        rw [hp.nodup_iff]
        simp only [List.nodup_cons, List.mem_append, not_or]
        exact ⟨hnd.1, hnd.2⟩
      obtain ⟨hsorted, hperm⟩ := ih (s.onStoreLog tx idx entry) hs1 hnd1
      refine ⟨hsorted, hperm.trans ?_⟩
      rw [hsame]
      have h2 := hperm1.append_left (insertionsFor tx rest)
      exact h2.trans (by simp)
    · have hins : insertionsFor t ((tx, idx, entry) :: rest) = insertionsFor t rest := by
        simp [insertionsFor, htx]
      have hframe := FullTracer.logsOf_onStoreLog_ne s tx t idx entry (Ne.symm htx)
      rw [hins] at hnd ⊢
      have := ih (s.onStoreLog tx idx entry) (by rw [hframe]; exact hs) (by rw [hframe]; exact hnd)
      rw [hframe] at this
      exact this

/-! ## Lemmas on event delivery -/

/-- C7: for every transaction index t with no logs stored yet and every sequence of onStoreLog
events, in any call order and possibly interleaved with insertions for other transactions, whose
log indices for t are pairwise distinct, the logs retrieved for t are exactly the entries
inserted for t, in strictly ascending logIndex order. -/
theorem log_ordering {X : Externals} (s : FullTracer X) (t : Nat)
    (events : List (Nat × Nat × Log)) (hempty : s.logsOf t = [])
    (hdistinct : ((insertionsFor t events).map Prod.fst).Nodup) :
    List.Sorted (· < ·) (((s.storeLogs events).logsOf t).map Prod.fst) ∧
    List.Perm ((s.storeLogs events).logsOf t) (insertionsFor t events) := by
  have h := FullTracer.logsOf_storeLogs t events s (by simp [hempty])
    (by simpa [hempty] using hdistinct)
  simpa [hempty] using h

/-- Witness of C7: inserting log indices 2, 0, 1 for transaction 3, with an insertion for
transaction 4 in between, yields retrieval order 0, 1, 2 for transaction 3. -/
theorem log_ordering_witness :
    freshTracer.logsOf 3 = [] ∧
    ((insertionsFor 3
      [(3, 2, sampleLog 2), (3, 0, sampleLog 0), (4, 0, sampleLog 0),
        (3, 1, sampleLog 1)]).map Prod.fst).Nodup ∧
    List.Sorted (· < ·)
      (((freshTracer.storeLogs
        [(3, 2, sampleLog 2), (3, 0, sampleLog 0), (4, 0, sampleLog 0),
          (3, 1, sampleLog 1)]).logsOf 3).map Prod.fst) ∧
    (freshTracer.storeLogs
      [(3, 2, sampleLog 2), (3, 0, sampleLog 0), (4, 0, sampleLog 0),
        (3, 1, sampleLog 1)]).logsOf 3 =
      [(0, sampleLog 0), (1, sampleLog 1), (2, sampleLog 2)] :=
  ⟨rfl, by decide,
    (log_ordering freshTracer 3
      [(3, 2, sampleLog 2), (3, 0, sampleLog 0), (4, 0, sampleLog 0), (3, 1, sampleLog 1)]
      rfl (by decide)).1,
    rfl⟩

end fork_1
